import Mathlib

/-!
Verification of the test-execution result pipeline of an AI testing agent:
runner invocation outcome handling, normalization of the two runner output
shapes (flat Jest-style suites and nested Playwright-style suites),
aggregation of pass/fail statistics, and report rendering (JSON and
JUnit-style XML), as implemented in src/testRunner.ts and
src/testReporter.ts of the repository.

External capabilities (process execution, the host JSON parser, the clock,
the filesystem) are modeled as explicit inputs or as emitted effect lists;
everything the repository itself computes is embedded as executable Lean
definitions that follow the source line by line.
-/

/-- Modelled from the spec: the TestResult interface of core/types (the type
declaration file is absent from the sources; every field is also visible at
the construction sites in testRunner.ts) — one outcome per executed test:
identifier, passed flag, optional error text, duration in milliseconds. -/
structure TestResult where
  testId : String
  passed : Bool
  error : Option String
  duration : Nat
deriving DecidableEq, Repr

/-- One entry of the failedTests list built by analyzeResults:
identifier plus the (optional) error text of a failing result. -/
structure FailedTestRef where
  testId : String
  error : Option String
deriving DecidableEq, Repr

/-- The summary record returned by analyzeResults. The pass rate is kept as
an exact rational; the source computes (passed / total) * 100 in host
floating point. -/
structure Summary where
  total : Nat
  passed : Nat
  failed : Nat
  passRate : ℚ
  totalDuration : Nat
deriving DecidableEq, Repr

/-- The full analysis object returned by analyzeResults: summary plus the
list of failing-test references. -/
structure Analysis where
  summary : Summary
  failedTests : List FailedTestRef
deriving DecidableEq, Repr

/-- JavaScript `a || b` on an optional string, where both an absent value
and the empty string are falsy. -/
def jsOr : Option String → String → String
  | some s, d => if s = "" then d else s
  | none, d => d

/-- JavaScript `a || undefined` on an optional string: an absent value stays
absent and an empty string becomes absent. -/
def jsUndef : Option String → Option String
  | some s => if s = "" then none else some s
  | none => none

/-- JestTestRunner.analyzeResults (identical code appears in
PlaywrightTestRunner.analyzeResults): partition the results by the passed
flag, sum the durations with reduce, and build the summary and the
failedTests list. -/
def analyzeResults (results : List TestResult) : Analysis :=
  let passed := results.filter (fun r => r.passed)
  let failed := results.filter (fun r => !r.passed)
  let totalDuration := results.foldl (fun acc r => acc + r.duration) 0
  { summary :=
      { total := results.length
        passed := passed.length
        failed := failed.length
        passRate :=
          if results.length = 0 then 0
          else ((passed.length : ℚ) / (results.length : ℚ)) * 100
        totalDuration := totalDuration }
    failedTests := failed.map (fun f => { testId := f.testId, error := f.error }) }

/-- Concatenation of the images of a list under a list-valued function;
used to state order-preservation of the normalizers. -/
def listFlatMap {α β : Type} (g : α → List β) : List α → List β
  | [] => []
  | x :: xs => g x ++ listFlatMap g xs

theorem length_filter_split {α : Type} (p : α → Bool) (l : List α) :
    (l.filter p).length + (l.filter (fun x => !p x)).length = l.length := by
  induction l with
  | nil => rfl
  | cons x xs ih =>
    by_cases h : p x <;> simp [List.filter_cons, h] <;> omega

theorem foldl_add_duration (l : List TestResult) :
    ∀ a : Nat, l.foldl (fun acc r => acc + r.duration) a
      = a + (l.map (fun r => r.duration)).sum := by
  induction l with
  | nil => intro a; simp
  | cons x xs ih => intro a; simp [List.foldl_cons, ih, Nat.add_assoc]

theorem foldl_push_eq_map {α β : Type} (f : α → β) (l : List α) :
    ∀ acc : List β, l.foldl (fun a x => a ++ [f x]) acc = acc ++ l.map f := by
  induction l with
  | nil => intro acc; simp
  | cons x xs ih => intro acc; simp [List.foldl_cons, ih]

theorem foldl_append_eq_flatMap {α β : Type} (g : α → List β) (l : List α) :
    ∀ acc : List β, l.foldl (fun a x => a ++ g x) acc = acc ++ listFlatMap g l := by
  induction l with
  | nil => intro acc; simp [listFlatMap]
  | cons x xs ih => intro acc; simp [List.foldl_cons, ih, listFlatMap]

/-- Claim C6: analyzeResults is a pure function whose summary satisfies
total = length R, passed + failed = total, passRate = passed/total*100 for
nonempty input and 0 for empty input, totalDuration = the sum of all
durations, and whose failedTests list holds exactly the failing entries
(identifier and error each). -/
theorem c6_analyze_results (R : List TestResult) :
    (analyzeResults R).summary.total = R.length
    ∧ (analyzeResults R).summary.passed = (R.filter (fun r => r.passed)).length
    ∧ (analyzeResults R).summary.failed = (R.filter (fun r => !r.passed)).length
    ∧ (analyzeResults R).summary.passed + (analyzeResults R).summary.failed
        = (analyzeResults R).summary.total
    ∧ (R.length ≠ 0 →
        (analyzeResults R).summary.passRate
          = ((R.filter (fun r => r.passed)).length : ℚ) / (R.length : ℚ) * 100)
    ∧ (R = [] → (analyzeResults R).summary.passRate = 0)
    ∧ (analyzeResults R).summary.totalDuration = (R.map (fun r => r.duration)).sum
    ∧ (analyzeResults R).failedTests
        = (R.filter (fun r => !r.passed)).map (fun r => { testId := r.testId, error := r.error }) := by
  refine ⟨rfl, rfl, rfl, ?_, ?_, ?_, ?_, rfl⟩
  · exact length_filter_split (fun r => r.passed) R
  · intro h
    simp only [analyzeResults, if_neg h]
  · intro h
    subst h
    rfl
  · simpa using foldl_add_duration R 0

/-- Claim C6 witness: the summary equations instantiated on a concrete
two-element run, the nonemptiness hypothesis discharged there. -/
theorem c6_analyze_results_witness :
    ([⟨"a", true, none, 10⟩, ⟨"b", false, some "boom", 5⟩] : List TestResult).length ≠ 0
    ∧ (analyzeResults [⟨"a", true, none, 10⟩, ⟨"b", false, some "boom", 5⟩]).summary.passRate
        = ((([⟨"a", true, none, 10⟩, ⟨"b", false, some "boom", 5⟩] : List TestResult).filter
            (fun r => r.passed)).length : ℚ)
          / (([⟨"a", true, none, 10⟩, ⟨"b", false, some "boom", 5⟩] : List TestResult).length : ℚ) * 100 :=
  ⟨by decide,
   (c6_analyze_results [⟨"a", true, none, 10⟩, ⟨"b", false, some "boom", 5⟩]).2.2.2.2.1
     (by decide)⟩

/-- One assertion record of the flat-suite (Jest) output shape, with the
fields testRunner.ts reads: fullName, title, status, failureMessages,
duration. Fields the source reads through optional chaining or a falsy
fallback are Options. -/
structure JestAssertion where
  fullName : Option String
  title : String
  status : String
  failureMessages : Option (List String)
  duration : Option Nat
deriving DecidableEq, Repr

/-- One suite record of the flat-suite output shape: the collection of its
assertion records. -/
structure JestSuiteResult where
  assertionResults : List JestAssertion
deriving DecidableEq, Repr

/-- The top-level flat-suite document: the collection of suite records. -/
structure JestDoc where
  testResults : List JestSuiteResult
deriving DecidableEq, Repr

/-- The TestResult built from one assertion record, following the object
literal pushed by JestTestRunner.parseJestResults: fullName || title,
status === 'passed', failureMessages?.join('\n') || undefined,
duration || 0. -/
def assertionToResult (a : JestAssertion) : TestResult :=
  { testId := jsOr a.fullName a.title
    passed := a.status == "passed"
    error := jsUndef (a.failureMessages.map (fun ms => String.intercalate "\n" ms))
    duration := a.duration.getD 0 }

/-- JestTestRunner.parseJestResults: two nested loops pushing one result per
assertion record onto an accumulator array. -/
def parseJestResults (d : JestDoc) : List TestResult :=
  d.testResults.foldl
    (fun acc tr => tr.assertionResults.foldl (fun acc2 a => acc2 ++ [assertionToResult a]) acc)
    []

theorem parseJestResults_eq_flatMap (d : JestDoc) :
    parseJestResults d
      = listFlatMap (fun tr => tr.assertionResults.map assertionToResult) d.testResults := by
  unfold parseJestResults
  have h : ∀ (l : List JestSuiteResult) (acc : List TestResult),
      l.foldl (fun acc tr =>
        tr.assertionResults.foldl (fun acc2 a => acc2 ++ [assertionToResult a]) acc) acc
      = acc ++ listFlatMap (fun tr => tr.assertionResults.map assertionToResult) l := by
    intro l
    induction l with
    | nil => intro acc; simp [listFlatMap]
    | cons tr rest ih =>
      intro acc
      simp only [List.foldl_cons]
      rw [foldl_push_eq_map, ih]
      simp [listFlatMap, List.append_assoc]
  simpa using h d.testResults []

/-- Claim C7: flat-suite normalization maps each assertion record to exactly
one TestResult — identifier from the fully qualified name with the short
title as fallback, passed iff status equals passed, error the newline-join
of the failure messages and absent when there are none, duration the
reported duration or 0 — and on a document with one suite holding a passed
assertion (duration 10) and a failed assertion with message boom
(duration 5) it yields two results aggregating to total 2, passed 1,
failed 1, passRate 50, totalDuration 15. -/
theorem c7_flat_normalization :
    (∀ a : JestAssertion,
        (a.fullName = none → (assertionToResult a).testId = a.title)
      ∧ (∀ s, a.fullName = some s → s ≠ "" → (assertionToResult a).testId = s)
      ∧ ((assertionToResult a).passed = true ↔ a.status = "passed")
      ∧ (a.failureMessages = none → (assertionToResult a).error = none)
      ∧ (a.failureMessages = some [] → (assertionToResult a).error = none)
      ∧ (∀ ms, a.failureMessages = some ms → String.intercalate "\n" ms ≠ "" →
          (assertionToResult a).error = some (String.intercalate "\n" ms))
      ∧ (a.duration = none → (assertionToResult a).duration = 0)
      ∧ (∀ n, a.duration = some n → (assertionToResult a).duration = n))
    ∧ (∀ d : JestDoc,
        parseJestResults d
          = listFlatMap (fun tr => tr.assertionResults.map assertionToResult) d.testResults)
    ∧ parseJestResults
        ⟨[⟨[⟨some "suite passes", "passes", "passed", some [], some 10⟩,
            ⟨some "suite fails", "fails", "failed", some ["boom"], some 5⟩]⟩]⟩
        = [⟨"suite passes", true, none, 10⟩, ⟨"suite fails", false, some "boom", 5⟩]
    ∧ analyzeResults
        (parseJestResults
          ⟨[⟨[⟨some "suite passes", "passes", "passed", some [], some 10⟩,
              ⟨some "suite fails", "fails", "failed", some ["boom"], some 5⟩]⟩]⟩)
        = ⟨⟨2, 1, 1, 50, 15⟩, [⟨"suite fails", some "boom"⟩]⟩ := by
  refine ⟨?_, parseJestResults_eq_flatMap, by decide, ?_⟩
  · intro a
    refine ⟨?_, ?_, ?_, ?_, ?_, ?_, ?_, ?_⟩
    · intro h; simp [assertionToResult, jsOr, h]
    · intro s h hs; simp [assertionToResult, jsOr, h, hs]
    · simp [assertionToResult]
    · intro h; simp [assertionToResult, jsUndef, h]
    · intro h; simp [assertionToResult, jsUndef, h, String.intercalate]
    · intro ms h hne; simp [assertionToResult, jsUndef, h, hne]
    · intro h; simp [assertionToResult, h]
    · intro n h; simp [assertionToResult, h]
  · rw [show parseJestResults
          ⟨[⟨[⟨some "suite passes", "passes", "passed", some [], some 10⟩,
              ⟨some "suite fails", "fails", "failed", some ["boom"], some 5⟩]⟩]⟩
        = [⟨"suite passes", true, none, 10⟩, ⟨"suite fails", false, some "boom", 5⟩]
      from by decide]
    simp [analyzeResults, Analysis.mk.injEq, Summary.mk.injEq]
    norm_num

/-- Claim C7 witness: the per-field map instantiated on a concrete failing
assertion, every hypothesis discharged there. -/
theorem c7_flat_normalization_witness :
    (assertionToResult ⟨some "q full", "q", "failed", some ["boom"], some 5⟩).testId = "q full"
    ∧ (assertionToResult ⟨some "q full", "q", "failed", some ["boom"], some 5⟩).error
        = some (String.intercalate "\n" ["boom"]) :=
  ⟨(c7_flat_normalization.1 ⟨some "q full", "q", "failed", some ["boom"], some 5⟩).2.1
      "q full" rfl (by decide),
   (c7_flat_normalization.1 ⟨some "q full", "q", "failed", some ["boom"], some 5⟩).2.2.2.2.2.1
      ["boom"] rfl (by decide)⟩

/-- One error object attached to a nested-suite test run. The source reads
e.message || JSON.stringify(e); the stringified field carries the host
serialization of the object, an opaque input to this pipeline. -/
structure PwTestError where
  message : Option String
  stringified : String
deriving DecidableEq, Repr

/-- One test run (one retry/browser execution) of a nested-suite spec. -/
structure PwTest where
  status : String
  errors : Option (List PwTestError)
  duration : Option Nat
deriving DecidableEq, Repr

/-- One spec record of a nested-suite document: its title and its test
runs. The source reads the runs as (spec.tests || []); an absent collection
is modeled as the empty list. -/
structure PwSpec where
  title : String
  tests : List PwTest
deriving DecidableEq, Repr

/-- One suite record of a nested-suite document: title, spec records, and
child suites, nesting arbitrarily deep. The source reads the collections as
(suite.specs || []) and (suite.suites || []); an absent collection is
modeled as the empty list. -/
inductive PwSuite : Type where
  | mk (title : String) (specs : List PwSpec) (suites : List PwSuite)

/-- The top-level nested-suite document; the source reads
(pwResults.suites || []), and an absent collection is modeled as []. -/
structure PwDoc where
  suites : List PwSuite

/-- The text contributed by one attached error object:
e.message || JSON.stringify(e). -/
def pwErrText (e : PwTestError) : String :=
  jsOr e.message e.stringified

/-- The TestResult built from one test run, following the object literal
pushed by PlaywrightTestRunner.extractPlaywrightTestResults: identifier
suite title, separator, spec title; passed iff status is passed or
expected; errors mapped to text and newline-joined, empty join becoming
absent; duration || 0. -/
def pwTestToResult (suiteTitle specTitle : String) (t : PwTest) : TestResult :=
  { testId := suiteTitle ++ " › " ++ specTitle
    passed := t.status == "passed" || t.status == "expected"
    error := jsUndef (t.errors.map (fun es => String.intercalate "\n" (es.map pwErrText)))
    duration := t.duration.getD 0 }

mutual

/-- PlaywrightTestRunner.extractPlaywrightTestResults: push one result per
test run of each spec of this suite onto the accumulator, then recurse into
the child suites with the same accumulator. -/
def extractPlaywrightTestResults : PwSuite → List TestResult → List TestResult
  | .mk title specs suites, results =>
      extractPwSuiteList suites
        (specs.foldl
          (fun acc sp =>
            sp.tests.foldl (fun acc2 t => acc2 ++ [pwTestToResult title sp.title t]) acc)
          results)

/-- The loop over a collection of (child) suites, threading the shared
accumulator through extractPlaywrightTestResults. -/
def extractPwSuiteList : List PwSuite → List TestResult → List TestResult
  | [], results => results
  | s :: rest, results => extractPwSuiteList rest (extractPlaywrightTestResults s results)

end

/-- PlaywrightTestRunner.parsePlaywrightResults: run the extraction over
every top-level suite with one shared accumulator, starting empty. -/
def parsePlaywrightResults (d : PwDoc) : List TestResult :=
  extractPwSuiteList d.suites []

mutual

/-- The results contributed by one suite, written declaratively: the
flattened results of its own specs followed by those of its child suites,
in document order. -/
def pwResultsOf : PwSuite → List TestResult
  | .mk title specs suites =>
      listFlatMap (fun sp => sp.tests.map (pwTestToResult title sp.title)) specs
      ++ pwResultsOfList suites

/-- The concatenated results of a collection of suites, in order. -/
def pwResultsOfList : List PwSuite → List TestResult
  | [] => []
  | s :: rest => pwResultsOf s ++ pwResultsOfList rest

end

mutual

theorem extract_eq_append (s : PwSuite) (acc : List TestResult) :
    extractPlaywrightTestResults s acc = acc ++ pwResultsOf s := by
  match s with
  | .mk title specs suites =>
    rw [extractPlaywrightTestResults, pwResultsOf]
    have hspecs : ∀ (l : List PwSpec) (a : List TestResult),
        l.foldl
          (fun acc sp =>
            sp.tests.foldl (fun acc2 t => acc2 ++ [pwTestToResult title sp.title t]) acc) a
        = a ++ listFlatMap (fun sp => sp.tests.map (pwTestToResult title sp.title)) l := by
      intro l
      induction l with
      | nil => intro a; simp [listFlatMap]
      | cons sp rest ih =>
        intro a
        simp only [List.foldl_cons]
        rw [foldl_push_eq_map, ih]
        simp [listFlatMap, List.append_assoc]
    rw [hspecs, extractList_eq_append suites]
    simp [List.append_assoc]

theorem extractList_eq_append (ss : List PwSuite) (acc : List TestResult) :
    extractPwSuiteList ss acc = acc ++ pwResultsOfList ss := by
  match ss with
  | [] => rw [extractPwSuiteList, pwResultsOfList]; simp
  | s :: rest =>
    rw [extractPwSuiteList, pwResultsOfList, extract_eq_append s, extractList_eq_append rest]
    simp [List.append_assoc]

end

/-- Claim C8: nested-suite normalization recurses through arbitrarily deep
suite nesting, flattening every leaf test run into one TestResult whose
identifier combines the innermost enclosing suite title with the spec title
through a separator, with passed iff status is passed or expected, error the
newline-join of the stringified attached errors (absent when none), and
duration the reported duration or 0; a root suite A holding a child suite B
holding one spec t1 with one test of status expected yields exactly one
passing result whose identifier is built from B and t1. -/
theorem c8_nested_normalization :
    (∀ (st sp : String) (t : PwTest),
        (pwTestToResult st sp t).testId = st ++ " › " ++ sp
      ∧ ((pwTestToResult st sp t).passed = true ↔ (t.status = "passed" ∨ t.status = "expected"))
      ∧ (t.errors = none → (pwTestToResult st sp t).error = none)
      ∧ (∀ es, t.errors = some es → String.intercalate "\n" (es.map pwErrText) ≠ "" →
          (pwTestToResult st sp t).error = some (String.intercalate "\n" (es.map pwErrText)))
      ∧ (∀ e, pwErrText e = jsOr e.message e.stringified)
      ∧ (t.duration = none → (pwTestToResult st sp t).duration = 0)
      ∧ (∀ n, t.duration = some n → (pwTestToResult st sp t).duration = n))
    ∧ (∀ (s : PwSuite) (acc : List TestResult),
        extractPlaywrightTestResults s acc = acc ++ pwResultsOf s)
    ∧ (∀ (title : String) (specs : List PwSpec) (suites : List PwSuite),
        pwResultsOf (.mk title specs suites)
          = listFlatMap (fun sp => sp.tests.map (pwTestToResult title sp.title)) specs
            ++ pwResultsOfList suites)
    ∧ parsePlaywrightResults ⟨[.mk "A" [] [.mk "B" [⟨"t1", [⟨"expected", none, none⟩]⟩] []]]⟩
        = [⟨"B › t1", true, none, 0⟩] := by
  refine ⟨?_, extract_eq_append, ?_, by decide⟩
  · intro st sp t
    refine ⟨rfl, ?_, ?_, ?_, fun e => rfl, ?_, ?_⟩
    · simp [pwTestToResult]
    · intro h; simp [pwTestToResult, jsUndef, h]
    · intro es h hne; simp [pwTestToResult, jsUndef, h, hne]
    · intro h; simp [pwTestToResult, h]
    · intro n h; simp [pwTestToResult, h]
  · intro title specs suites
    rw [pwResultsOf]

/-- Claim C8 witness: the extraction equation and the per-test field map
instantiated on a concrete suite and a concrete failing test run, every
hypothesis discharged there. -/
theorem c8_nested_normalization_witness :
    extractPlaywrightTestResults (.mk "S" [⟨"t", [⟨"failed", some [⟨some "oops", "o"⟩], some 7⟩]⟩] []) []
        = [] ++ pwResultsOf (.mk "S" [⟨"t", [⟨"failed", some [⟨some "oops", "o"⟩], some 7⟩]⟩] [])
    ∧ (pwTestToResult "S" "t" ⟨"failed", some [⟨some "oops", "o"⟩], some 7⟩).error
        = some (String.intercalate "\n" (([⟨some "oops", "o"⟩] : List PwTestError).map pwErrText))
    ∧ (pwTestToResult "S" "t" ⟨"failed", some [⟨some "oops", "o"⟩], some 7⟩).duration = 7 :=
  ⟨c8_nested_normalization.2.1 (.mk "S" [⟨"t", [⟨"failed", some [⟨some "oops", "o"⟩], some 7⟩]⟩] []) [],
   (c8_nested_normalization.1 "S" "t" ⟨"failed", some [⟨some "oops", "o"⟩], some 7⟩).2.2.2.1
     [⟨some "oops", "o"⟩] rfl (by decide),
   (c8_nested_normalization.1 "S" "t" ⟨"failed", some [⟨some "oops", "o"⟩], some 7⟩).2.2.2.2.2.2
     7 rfl⟩

/-- Claim C10: both normalizers preserve document order — the flat-suite
normalizer lists assertions in suite order then per-suite assertion order,
and the nested-suite normalizer lists results depth first, a suite's own
spec results before those of its child suites and child suites in document
order. -/
theorem c10_document_order :
    (∀ d : JestDoc,
        parseJestResults d
          = listFlatMap (fun tr => tr.assertionResults.map assertionToResult) d.testResults)
    ∧ (∀ d : PwDoc, parsePlaywrightResults d = listFlatMap pwResultsOf d.suites)
    ∧ (∀ (title : String) (specs : List PwSpec) (suites : List PwSuite),
        pwResultsOf (.mk title specs suites)
          = listFlatMap (fun sp => sp.tests.map (pwTestToResult title sp.title)) specs
            ++ listFlatMap pwResultsOf suites) := by
  have hlist : ∀ ss : List PwSuite, pwResultsOfList ss = listFlatMap pwResultsOf ss := by
    intro ss
    induction ss with
    | nil => rw [pwResultsOfList, listFlatMap]
    | cons s rest ih => rw [pwResultsOfList, listFlatMap, ih]
  refine ⟨parseJestResults_eq_flatMap, ?_, ?_⟩
  · intro d
    rw [parsePlaywrightResults, extractList_eq_append, hlist]
    simp
  · intro title specs suites
    rw [pwResultsOf, hlist]

/-- A captured stdout text together with the outcome of running the host
JSON parser and the shape navigation of the runner's decoder on it:
decodes when JSON.parse succeeds and the document has the expected shape,
raw with the parser's error message otherwise. The empty text never
decodes. -/
inductive Stdout (α : Type) where
  | decodes (text : String) (doc : α)
  | raw (text : String) (parseMsg : String)

/-- JavaScript truthiness of the captured stdout string, as tested by
`if (error.stdout)`: only the empty string is falsy. -/
def Stdout.truthy {α : Type} : Stdout α → Bool
  | .decodes text _ => text ≠ ""
  | .raw text _ => text ≠ ""

/-- The outcome of awaiting execPromise: success carries stdout and stderr;
failure (non-zero exit or a process that could not be started) carries the
rejection's message and, when the process produced output before exiting,
its captured stdout. -/
inductive ExecOutcome (α : Type) where
  | success (stdout : Stdout α) (stderr : String)
  | failure (message : String) (stdout : Option (Stdout α))

/-- A thrown JavaScript error as seen by the outer catch of
JestTestRunner.runTests: its message, and its stdout property when the
thrown value is an execPromise rejection (a plain Error has none). -/
structure JsError (α : Type) where
  message : String
  stdout : Option (Stdout α)

/-- The single synthetic result returned when a runner invocation fails
without usable structured output. -/
def execErrorResult (msg : String) : TestResult :=
  { testId := "test-execution-error", passed := false, error := some msg, duration := 0 }

/-- The outer catch block of JestTestRunner.runTests: if the caught error
carries truthy stdout, retry the parse and return the parsed results on
success; otherwise return the single synthetic failing result carrying the
caught error's message. -/
def jestOuterCatch (e : JsError JestDoc) : List TestResult :=
  match e.stdout with
  | some s =>
      if s.truthy then
        match s with
        | .decodes _ doc => parseJestResults doc
        | .raw _ _ => [execErrorResult e.message]
      else [execErrorResult e.message]
  | none => [execErrorResult e.message]

/-- JestTestRunner.runTests on a given execPromise outcome. On success the
inner try parses stdout and returns the normalized results; on a parse
failure the inner catch throws an Error whose message is prefixed
'Failed to parse Jest results: ', and that Error — which carries no stdout
property — is caught by the enclosing outer catch. Every failure path ends
in the outer catch, so no error escapes: the Except codomain records
faithfully that the .error constructor is never produced. -/
def jestRunTests (outcome : ExecOutcome JestDoc) : Except String (List TestResult) :=
  match outcome with
  | .success stdout _stderr =>
      match stdout with
      | .decodes _ doc => .ok (parseJestResults doc)
      | .raw _ parseMsg =>
          .ok (jestOuterCatch { message := "Failed to parse Jest results: " ++ parseMsg, stdout := none })
  | .failure msg stdout => .ok (jestOuterCatch { message := msg, stdout := stdout })

/-- PlaywrightTestRunner.runTests on a given execPromise outcome. On success
the inner try parses stdout; on a parse failure the inner catch throws an
Error prefixed 'Failed to parse Playwright results: ', which the outer
catch converts to the single synthetic result. The outer catch never
inspects the rejection's stdout: any failure outcome yields the synthetic
result. -/
def pwRunTests (outcome : ExecOutcome PwDoc) : Except String (List TestResult) :=
  match outcome with
  | .success stdout _stderr =>
      match stdout with
      | .decodes _ doc => .ok (parsePlaywrightResults doc)
      | .raw _ parseMsg =>
          .ok [execErrorResult ("Failed to parse Playwright results: " ++ parseMsg)]
  | .failure msg _stdout => .ok [execErrorResult msg]

/-- Claim C1: contrary to the claim, a successful process exit whose stdout
fails to parse does not make runTests fail: in both runner families the
Error thrown by the inner catch (message prefixed 'Failed to parse ...
results') is swallowed by the enclosing outer catch, which returns the
synthetic test-execution-error result carrying that message. This theorem
evaluates both runners at the claim's failing input. -/
theorem c1_parse_failure_swallowed :
    jestRunTests (.success (.raw "not json" "Unexpected token") "")
      = .ok [execErrorResult ("Failed to parse Jest results: " ++ "Unexpected token")]
    ∧ pwRunTests (.success (.raw "not json" "Unexpected token") "")
      = .ok [execErrorResult ("Failed to parse Playwright results: " ++ "Unexpected token")]
    ∧ execErrorResult ("Failed to parse Jest results: " ++ "Unexpected token")
      = { testId := "test-execution-error", passed := false,
          error := some "Failed to parse Jest results: Unexpected token", duration := 0 } :=
  ⟨rfl, rfl, by decide⟩

/-- Claim C5: whenever the process cannot be started or exits non-zero with
stdout absent or unparsable, both runners return — rather than throw — a
sequence holding exactly one TestResult with identifier
test-execution-error, passed false, duration 0, and error text equal to the
(non-empty) failure message. -/
theorem c5_spawn_failure_synthetic (msg : String) (hmsg : msg ≠ "")
    (stJ : Option (Stdout JestDoc)) (stP : Option (Stdout PwDoc))
    (hJ : stJ = none ∨ ∃ t pm, stJ = some (.raw t pm))
    (hP : stP = none ∨ ∃ t pm, stP = some (.raw t pm)) :
    jestRunTests (.failure msg stJ)
      = .ok [{ testId := "test-execution-error", passed := false,
               error := some msg, duration := 0 }]
    ∧ pwRunTests (.failure msg stP)
      = .ok [{ testId := "test-execution-error", passed := false,
               error := some msg, duration := 0 }]
    ∧ msg ≠ "" := by
  refine ⟨?_, ?_, hmsg⟩
  · rcases hJ with h | ⟨t, pm, h⟩ <;> subst h
    · rfl
    · show Except.ok (jestOuterCatch _) = _
      rw [jestOuterCatch]
      by_cases ht : (Stdout.raw t pm : Stdout JestDoc).truthy <;> simp [ht, execErrorResult]
  · rcases hP with h | ⟨t, pm, h⟩ <;> subst h <;> rfl

/-- Claim C5 witness: both runners evaluated on a spawn failure with no
stdout and on a non-zero exit with unparsable stdout, the hypotheses
discharged at those inputs. -/
theorem c5_spawn_failure_synthetic_witness :
    jestRunTests (.failure "Command failed: npx jest" (some (.raw "garbage" "Unexpected token")))
      = .ok [{ testId := "test-execution-error", passed := false,
               error := some "Command failed: npx jest", duration := 0 }]
    ∧ pwRunTests (.failure "Command failed: npx jest" (none : Option (Stdout PwDoc)))
      = .ok [{ testId := "test-execution-error", passed := false,
               error := some "Command failed: npx jest", duration := 0 }] :=
  ⟨(c5_spawn_failure_synthetic "Command failed: npx jest" (by decide)
      (some (.raw "garbage" "Unexpected token")) none
      (Or.inr ⟨"garbage", "Unexpected token", rfl⟩) (Or.inl rfl)).1,
   (c5_spawn_failure_synthetic "Command failed: npx jest" (by decide)
      (some (.raw "garbage" "Unexpected token")) none
      (Or.inr ⟨"garbage", "Unexpected token", rfl⟩) (Or.inl rfl)).2.1⟩

/-- Claim C3 counterexample: a Playwright-family invocation whose process
exits non-zero while stdout holds valid JSON of the expected shape returns
the single synthetic test-execution-error result, not the sequence
normalized from that stdout, because the Playwright outer catch never
retries the parse. -/
theorem c3_counterexample :
    pwRunTests (.failure "Command failed: npx playwright test"
        (some (.decodes "out" ⟨[.mk "S" [⟨"t", [⟨"passed", none, some 3⟩]⟩] []]⟩)))
      = .ok [execErrorResult "Command failed: npx playwright test"]
    ∧ parsePlaywrightResults ⟨[.mk "S" [⟨"t", [⟨"passed", none, some 3⟩]⟩] []]⟩
      = [⟨"S › t", true, none, 3⟩]
    ∧ execErrorResult "Command failed: npx playwright test" ≠ ⟨"S › t", true, none, 3⟩ :=
  ⟨rfl, by decide, by decide⟩

/-- Claim C3 amended: only the Jest family re-parses stdout on a non-zero
exit — when that stdout is truthy and parses as the expected shape,
JestTestRunner.runTests returns the sequence normalized from it; the
Playwright family returns the single synthetic test-execution-error result
on every non-zero exit regardless of its stdout. -/
theorem c3_nonzero_exit_with_json (msg txt : String) (d : JestDoc) (ht : txt ≠ "") :
    jestRunTests (.failure msg (some (.decodes txt d))) = .ok (parseJestResults d)
    ∧ (∀ (pmsg : String) (pst : Option (Stdout PwDoc)),
        pwRunTests (.failure pmsg pst) = .ok [execErrorResult pmsg]) := by
  refine ⟨?_, fun pmsg pst => rfl⟩
  show Except.ok (jestOuterCatch _) = _
  rw [jestOuterCatch]
  simp [Stdout.truthy, ht]

/-- Claim C3 witness: the amended statement instantiated on a concrete
non-zero exit with a one-assertion document, the truthiness hypothesis
discharged there. -/
theorem c3_nonzero_exit_with_json_witness :
    jestRunTests (.failure "exit 1"
        (some (.decodes "doc" ⟨[⟨[⟨some "a b", "b", "passed", some [], some 4⟩]⟩]⟩)))
      = .ok (parseJestResults ⟨[⟨[⟨some "a b", "b", "passed", some [], some 4⟩]⟩]⟩) :=
  (c3_nonzero_exit_with_json "exit 1" "doc"
    ⟨[⟨[⟨some "a b", "b", "passed", some [], some 4⟩]⟩]⟩ (by decide)).1

/-- The double-quote character, kept as a named constant for readability in
the escaping lemmas. -/
def quotChar : Char := Char.ofNat 34

/-- The apostrophe character, kept as a named constant for readability in
the escaping lemmas. -/
def aposChar : Char := Char.ofNat 39

/-- One global single-character replacement, the effect of
String.replace(/c/g, r): each occurrence of c becomes the sequence r. -/
def xmlReplace (c : Char) (r : List Char) (s : List Char) : List Char :=
  listFlatMap (fun x => if x = c then r else [x]) s

/-- TestReporter.escapeXml on the character list of the input: the five
sequential global replaces of the source, ampersand first. -/
def escapeXmlList (s : List Char) : List Char :=
  xmlReplace aposChar ("&apos;".toList)
    (xmlReplace quotChar ("&quot;".toList)
      (xmlReplace '>' ("&gt;".toList)
        (xmlReplace '<' ("&lt;".toList)
          (xmlReplace '&' ("&amp;".toList) s))))

/-- TestReporter.escapeXml: the chain of the five global replaces
& → &amp;, < → &lt;, > → &gt;, double quote → &quot;,
apostrophe → &apos;, applied in that order. -/
def escapeXml (s : String) : String :=
  String.mk (escapeXmlList s.data)

/-- The per-character escaping map the chain of replaces amounts to. -/
def escCharSpec (c : Char) : List Char :=
  if c = '&' then "&amp;".toList
  else if c = '<' then "&lt;".toList
  else if c = '>' then "&gt;".toList
  else if c = quotChar then "&quot;".toList
  else if c = aposChar then "&apos;".toList
  else [c]

theorem listFlatMap_append {α β : Type} (g : α → List β) (a b : List α) :
    listFlatMap g (a ++ b) = listFlatMap g a ++ listFlatMap g b := by
  induction a with
  | nil => simp [listFlatMap]
  | cons x xs ih => simp [listFlatMap, ih, List.append_assoc]

theorem xmlReplace_append (c : Char) (r : List Char) (a b : List Char) :
    xmlReplace c r (a ++ b) = xmlReplace c r a ++ xmlReplace c r b :=
  listFlatMap_append _ a b

theorem escapeXmlList_cons (x : Char) (s : List Char) :
    escapeXmlList (x :: s) = escapeXmlList [x] ++ escapeXmlList s := by
  show escapeXmlList ([x] ++ s) = escapeXmlList [x] ++ escapeXmlList s
  simp only [escapeXmlList, xmlReplace_append]

theorem escapeXmlList_single (x : Char) : escapeXmlList [x] = escCharSpec x := by
  by_cases h1 : x = '&'
  · subst h1; decide
  by_cases h2 : x = '<'
  · subst h2; decide
  by_cases h3 : x = '>'
  · subst h3; decide
  by_cases h4 : x = quotChar
  · subst h4; decide
  by_cases h5 : x = aposChar
  · subst h5; decide
  simp [escapeXmlList, xmlReplace, listFlatMap, escCharSpec, h1, h2, h3, h4, h5]

theorem escapeXmlList_eq_flatMap (s : List Char) :
    escapeXmlList s = listFlatMap escCharSpec s := by
  induction s with
  | nil => decide
  | cons x xs ih => rw [escapeXmlList_cons, escapeXmlList_single, ih]; rfl

theorem mem_listFlatMap {α β : Type} (g : α → List β) (l : List α) (c : β) :
    c ∈ listFlatMap g l → ∃ x ∈ l, c ∈ g x := by
  induction l with
  | nil => intro h; simp [listFlatMap] at h
  | cons x xs ih =>
    intro h
    rw [listFlatMap, List.mem_append] at h
    rcases h with h | h
    · exact ⟨x, List.mem_cons_self x xs, h⟩
    · obtain ⟨y, hy, hc⟩ := ih h
      exact ⟨y, List.mem_cons_of_mem x hy, hc⟩

theorem escCharSpec_no_special (x c : Char) (hc : c ∈ escCharSpec x) :
    c ≠ '<' ∧ c ≠ '>' ∧ c ≠ quotChar ∧ c ≠ aposChar := by
  unfold escCharSpec at hc
  split_ifs at hc with h1 h2 h3 h4 h5
  · rw [show "&amp;".toList = ['&', 'a', 'm', 'p', ';'] from rfl] at hc
    fin_cases hc <;> refine ⟨by decide, by decide, by decide, by decide⟩
  · rw [show "&lt;".toList = ['&', 'l', 't', ';'] from rfl] at hc
    fin_cases hc <;> refine ⟨by decide, by decide, by decide, by decide⟩
  · rw [show "&gt;".toList = ['&', 'g', 't', ';'] from rfl] at hc
    fin_cases hc <;> refine ⟨by decide, by decide, by decide, by decide⟩
  · rw [show "&quot;".toList = ['&', 'q', 'u', 'o', 't', ';'] from rfl] at hc
    fin_cases hc <;> refine ⟨by decide, by decide, by decide, by decide⟩
  · rw [show "&apos;".toList = ['&', 'a', 'p', 'o', 's', ';'] from rfl] at hc
    fin_cases hc <;> refine ⟨by decide, by decide, by decide, by decide⟩
  · rw [List.mem_singleton] at hc
    subst hc
    exact ⟨h2, h3, h4, h5⟩

/-- Models (ms/1000).toFixed(2) for a non-negative integer millisecond
count: the exact value rounded half up at the second decimal and printed
with exactly two decimals. The host computes this through binary floating
point, whose rounding can differ on exact ties; no claim verified here
evaluates a tie. -/
def toFixed2 (ms : Nat) : String :=
  let h := (ms + 5) / 10
  toString (h / 100) ++ "." ++ (if h % 100 < 10 then "0" else "") ++ toString (h % 100)

/-- The testcase fragment appended for one result by the loop of
TestReporter.generateXmlReport: a self-closing leaf for a passing result;
for a failing result a testcase element nesting a failure element whose
message attribute is the escaped (error || 'Test failed') and whose body is
the escaped (error || ''). -/
def renderTestCase (r : TestResult) : String :=
  let testTime := toFixed2 r.duration
  let opening := "    <testcase name=\"" ++ escapeXml r.testId ++ "\" time=\"" ++ testTime ++ "\""
  if !r.passed then
    opening ++ ">\n" ++ "      <failure message=\"" ++ escapeXml (jsOr r.error "Test failed")
      ++ "\">" ++ escapeXml (jsOr r.error "") ++ "</failure>\n" ++ "    </testcase>\n"
  else
    opening ++ "/>\n"

/-- TestReporter.generateXmlReport: header, one testsuites element carrying
the aggregate attributes, one inner testsuite element with the same counts,
the per-result testcase fragments accumulated in a loop, and the closing
tags. The timestamp taken from the clock is an explicit argument. -/
def generateXmlReport (now : String) (results : List TestResult) (analysis : Analysis) : String :=
  let totalTime := toFixed2 analysis.summary.totalDuration
  let xml0 := "<?xml version=\"1.0\" encoding=\"UTF-8\"?>\n"
  let xml1 := xml0 ++ "<testsuites name=\"AI Testing Agent Results\" time=\"" ++ totalTime
      ++ "\" tests=\"" ++ toString analysis.summary.total ++ "\" failures=\""
      ++ toString analysis.summary.failed ++ "\" timestamp=\"" ++ now ++ "\">\n"
  let xml2 := xml1 ++ "  <testsuite name=\"TestSuite\" tests=\"" ++ toString analysis.summary.total
      ++ "\" failures=\"" ++ toString analysis.summary.failed ++ "\" time=\"" ++ totalTime ++ "\">\n"
  let xml3 := results.foldl (fun acc r => acc ++ renderTestCase r) xml2
  xml3 ++ "  </testsuite>\n" ++ "</testsuites>"

/-- Concatenation of the images of a list under a string-valued function. -/
def strConcatMap {α : Type} (g : α → String) : List α → String
  | [] => ""
  | x :: xs => g x ++ strConcatMap g xs

theorem foldl_strcat {α : Type} (g : α → String) (l : List α) :
    ∀ acc : String, l.foldl (fun a x => a ++ g x) acc = acc ++ strConcatMap g l := by
  induction l with
  | nil => intro acc; simp [strConcatMap]
  | cons x xs ih =>
    intro acc
    simp only [List.foldl_cons]
    rw [ih, strConcatMap, String.append_assoc]

theorem strConcatMap_append {α : Type} (g : α → String) (a b : List α) :
    strConcatMap g (a ++ b) = strConcatMap g a ++ strConcatMap g b := by
  induction a with
  | nil => simp [strConcatMap]
  | cons x xs ih =>
    show g x ++ strConcatMap g (xs ++ b) = (g x ++ strConcatMap g xs) ++ strConcatMap g b
    rw [ih, String.append_assoc]

/-- Claim C9: the markup escaper rewrites every occurrence of the five
characters ampersand, less-than, greater-than, double quote and apostrophe
to the entities amp, lt, gt, quot and apos — escapeXml acts as that
per-character map — so its output never contains less-than, greater-than, a
double quote or an apostrophe literally, and the inserted text of a leaf
element is always routed through it; concretely the identifier a-amp-b and
the error text angle-bad escape as the claim's examples state. -/
theorem c9_xml_escaping :
    (∀ s : String, escapeXml s = String.mk (listFlatMap escCharSpec s.data))
    ∧ (∀ s : String, ∀ c ∈ (escapeXml s).data,
        c ≠ '<' ∧ c ≠ '>' ∧ c ≠ quotChar ∧ c ≠ aposChar)
    ∧ (∀ r : TestResult, r.passed = true →
        renderTestCase r
          = "    <testcase name=\"" ++ escapeXml r.testId ++ "\" time=\""
            ++ toFixed2 r.duration ++ "\"" ++ "/>\n")
    ∧ escapeXml "a & b" = "a &amp; b"
    ∧ escapeXml "<bad>" = "&lt;bad&gt;" := by
  refine ⟨?_, ?_, ?_, by decide, by decide⟩
  · intro s
    rw [escapeXml, escapeXmlList_eq_flatMap]
  · intro s c hc
    rw [escapeXml] at hc
    rw [show (String.mk (escapeXmlList s.data)).data = escapeXmlList s.data from rfl,
        escapeXmlList_eq_flatMap] at hc
    obtain ⟨x, _, hx⟩ := mem_listFlatMap escCharSpec s.data c hc
    exact escCharSpec_no_special x c hx
  · intro r hr
    rw [renderTestCase]
    simp [hr]

/-- Claim C9 witness: the no-literal-special-character statement and the
passing-leaf rendering instantiated on concrete inputs, the membership and
passed hypotheses discharged there. -/
theorem c9_xml_escaping_witness :
    ('a' ≠ '<' ∧ 'a' ≠ '>' ∧ 'a' ≠ quotChar ∧ 'a' ≠ aposChar)
    ∧ renderTestCase ⟨"x", true, none, 0⟩
        = "    <testcase name=\"" ++ escapeXml "x" ++ "\" time=\"" ++ toFixed2 0 ++ "\"" ++ "/>\n" :=
  ⟨c9_xml_escaping.2.1 "a & b" 'a' (by decide),
   c9_xml_escaping.2.2.1 ⟨"x", true, none, 0⟩ rfl⟩

/-- Claim C4 counterexample: a failing result with no error text renders a
failure element whose message attribute carries the fallback text
Test failed, not the empty string the claim requires. -/
theorem c4_counterexample :
    renderTestCase ⟨"t", false, none, 0⟩
      = "    <testcase name=\"t\" time=\"0.00\">\n      <failure message=\"Test failed\"></failure>\n    </testcase>\n"
    ∧ ("    <testcase name=\"t\" time=\"0.00\">\n      <failure message=\"Test failed\"></failure>\n    </testcase>\n"
        : String)
      ≠ "    <testcase name=\"t\" time=\"0.00\">\n      <failure message=\"\"></failure>\n    </testcase>\n" :=
  ⟨by decide, by decide⟩

/-- Claim C4 amended: for every failing TestResult the rendered document
nests a failure element; when error text is present (and non-empty) the
message attribute and the element body both carry it escaped, and when it
is absent the message attribute carries the fallback text Test failed while
the body is empty. -/
theorem c4_failure_element (r : TestResult) (hfail : r.passed = false) :
    (∀ e, r.error = some e → e ≠ "" →
        renderTestCase r
          = "    <testcase name=\"" ++ escapeXml r.testId ++ "\" time=\"" ++ toFixed2 r.duration
            ++ "\"" ++ ">\n" ++ "      <failure message=\"" ++ escapeXml e ++ "\">" ++ escapeXml e
            ++ "</failure>\n" ++ "    </testcase>\n")
    ∧ (r.error = none →
        renderTestCase r
          = "    <testcase name=\"" ++ escapeXml r.testId ++ "\" time=\"" ++ toFixed2 r.duration
            ++ "\"" ++ ">\n" ++ "      <failure message=\"Test failed\">" ++ ""
            ++ "</failure>\n" ++ "    </testcase>\n")
    ∧ (∀ now results analysis, r ∈ results →
        ∃ pre post, generateXmlReport now results analysis = pre ++ renderTestCase r ++ post) := by
  refine ⟨?_, ?_, ?_⟩
  · intro e he hne
    rw [renderTestCase]
    simp [hfail, he, jsOr, hne]
  · intro he
    rw [renderTestCase]
    simp only [hfail, Bool.not_false, if_true, he, jsOr]
    rw [show escapeXml "Test failed" = "Test failed" from by decide,
        show escapeXml "" = "" from by decide]
    simp [String.append_assoc]
  · intro now results analysis hr
    obtain ⟨l1, l2, hsplit⟩ := List.append_of_mem hr
    subst hsplit
    refine ⟨"<?xml version=\"1.0\" encoding=\"UTF-8\"?>\n<testsuites name=\"AI Testing Agent Results\" time=\""
        ++ toFixed2 analysis.summary.totalDuration ++ "\" tests=\"" ++ toString analysis.summary.total
        ++ "\" failures=\"" ++ toString analysis.summary.failed ++ "\" timestamp=\"" ++ now
        ++ "\">\n  <testsuite name=\"TestSuite\" tests=\"" ++ toString analysis.summary.total
        ++ "\" failures=\"" ++ toString analysis.summary.failed ++ "\" time=\""
        ++ toFixed2 analysis.summary.totalDuration ++ "\">\n" ++ strConcatMap renderTestCase l1,
      strConcatMap renderTestCase l2 ++ ("  </testsuite>\n" ++ "</testsuites>"), ?_⟩
    rw [generateXmlReport]
    rw [foldl_strcat, strConcatMap_append, strConcatMap]
    simp [String.append_assoc]

/-- Claim C4 witness: the amended rendering instantiated on a concrete
failing result with error text boom, and its presence in a concrete
document, all hypotheses discharged there. -/
theorem c4_failure_element_witness :
    renderTestCase ⟨"t", false, some "boom", 0⟩
      = "    <testcase name=\"" ++ escapeXml "t" ++ "\" time=\"" ++ toFixed2 0
        ++ "\"" ++ ">\n" ++ "      <failure message=\"" ++ escapeXml "boom" ++ "\">" ++ escapeXml "boom"
        ++ "</failure>\n" ++ "    </testcase>\n"
    ∧ ∃ pre post, generateXmlReport "TS" [⟨"t", false, some "boom", 0⟩]
        (analyzeResults [⟨"t", false, some "boom", 0⟩])
        = pre ++ renderTestCase ⟨"t", false, some "boom", 0⟩ ++ post :=
  ⟨(c4_failure_element ⟨"t", false, some "boom", 0⟩ rfl).1 "boom" rfl (by decide),
   (c4_failure_element ⟨"t", false, some "boom", 0⟩ rfl).2.2 "TS" [⟨"t", false, some "boom", 0⟩]
     (analyzeResults [⟨"t", false, some "boom", 0⟩]) (List.mem_singleton.mpr rfl)⟩

/-- One lowercase hexadecimal digit, for control-character escapes. -/
def hexDigit (n : Nat) : String :=
  String.mk [("0123456789abcdef".toList.getD n '0')]

/-- The escape of one character inside a JSON string literal, as the host
serializer produces it: double quote, backslash, the named control escapes,
and a u-escape for the remaining control characters. -/
def jsonEscChar (c : Char) : String :=
  if c = quotChar then "\\" ++ String.mk [quotChar]
  else if c = '\\' then "\\\\"
  else if c = '\n' then "\\n"
  else if c = '\r' then "\\r"
  else if c = '\t' then "\\t"
  else if c.toNat = 8 then "\\b"
  else if c.toNat = 12 then "\\f"
  else if c.toNat < 32 then "\\u00" ++ hexDigit (c.toNat / 16) ++ hexDigit (c.toNat % 16)
  else String.mk [c]

/-- A JSON string literal for the given text. -/
def jsonStr (s : String) : String :=
  "\"" ++ strConcatMap jsonEscChar s.data ++ "\""

/-- Decimal digits of the fractional part num/den, at most fuel digits.
Stands in for the host's shortest-round-trip float printing; no verified
claim reads the structured report's text. -/
def decDigits (num den fuel : Nat) : String :=
  match fuel with
  | 0 => ""
  | fuel' + 1 =>
      if num = 0 then ""
      else toString (num * 10 / den) ++ decDigits (num * 10 % den) den fuel'

/-- Decimal rendering of a rational number, standing in for the host's
number-to-string conversion of the pass rate; no verified claim reads the
structured report's text. -/
def ratNumber (q : ℚ) : String :=
  let sign := if q.num < 0 then "-" else ""
  let n := q.num.natAbs
  let ip := n / q.den
  let rm := n % q.den
  if rm = 0 then sign ++ toString ip
  else sign ++ toString ip ++ "." ++ decDigits rm q.den 17

/-- The value serialized for the error field of one test entry:
result.error || null. -/
def jsonErrorVal (o : Option String) : String :=
  match o with
  | some e => if e = "" then "null" else jsonStr e
  | none => "null"

/-- One element of the tests array of the structured report:
id, status (passed or failed), duration, error-or-null. -/
def jsonTestEntry (r : TestResult) : String :=
  "    \x7b\n      \"id\": " ++ jsonStr r.testId
    ++ ",\n      \"status\": " ++ jsonStr (if r.passed then "passed" else "failed")
    ++ ",\n      \"duration\": " ++ toString r.duration
    ++ ",\n      \"error\": " ++ jsonErrorVal r.error
    ++ "\n    \x7d"

/-- One element of the failures array: the failing-test reference, whose
error key the serializer omits when the value is absent. -/
def jsonFailureEntry (f : FailedTestRef) : String :=
  "    \x7b\n      \"testId\": " ++ jsonStr f.testId
    ++ (match f.error with
        | some e => ",\n      \"error\": " ++ jsonStr e
        | none => "")
    ++ "\n    \x7d"

/-- A serialized array whose elements are already rendered: empty arrays
stay on one line, otherwise one element per line with the closing bracket
at the enclosing indent. -/
def jsonArrayAt (entries : List String) (closeIndent : String) : String :=
  match entries with
  | [] => "[]"
  | _ => "[\n" ++ String.intercalate ",\n" entries ++ "\n" ++ closeIndent ++ "]"

/-- TestReporter.generateJsonReport: the two-space-indented serialization of
the report object with fields timestamp, summary, tests and failures. The
timestamp taken from the clock is an explicit argument. -/
def generateJsonReport (now : String) (results : List TestResult) (analysis : Analysis) : String :=
  "\x7b\n  \"timestamp\": " ++ jsonStr now
    ++ ",\n  \"summary\": \x7b\n    \"total\": " ++ toString analysis.summary.total
    ++ ",\n    \"passed\": " ++ toString analysis.summary.passed
    ++ ",\n    \"failed\": " ++ toString analysis.summary.failed
    ++ ",\n    \"passRate\": " ++ ratNumber analysis.summary.passRate
    ++ ",\n    \"totalDuration\": " ++ toString analysis.summary.totalDuration
    ++ "\n  \x7d,\n  \"tests\": " ++ jsonArrayAt (results.map jsonTestEntry) "  "
    ++ ",\n  \"failures\": " ++ jsonArrayAt (analysis.failedTests.map jsonFailureEntry) "  "
    ++ "\n\x7d"

/-- A filesystem call made by the report writer, in program order: the
recursive directory creation or the file write. -/
inductive FsEffect where
  | mkdirRecursive (path : String)
  | writeFile (path : String) (content : String)
deriving DecidableEq, Repr

/-- The options record of TestReporter.generateReport. The format field is
modeled as the underlying string of the ReportFormat enum (json or xml),
since the claims quantify over arbitrary format values reaching the
renderer. -/
structure ReportOptions where
  format : String
  outputPath : String
  filename : Option String
  includeTimestamp : Option Bool
deriving DecidableEq, Repr

/-- The colon-to-hyphen rewrite applied to the ISO timestamp for a
filesystem-safe filename: String.replace(/:/g, '-'). -/
def replaceColons (s : String) : String :=
  String.mk (s.data.map (fun c => if c = ':' then '-' else c))

/-- Models path.join for the two segments the source joins; separator
normalization is immaterial to the claims, which never inspect the joined
path's text. -/
def pathJoin (a b : String) : String :=
  a ++ "/" ++ b

/-- TestReporter.generateReport: awaits fs.mkdir(outputPath, recursive)
first, then derives the filename (the supplied one, or test-report plus the
optional colon-sanitized timestamp suffix and the format extension), then
branches on the format — json and xml render and write the file, any other
value throws 'Unsupported report format' — so the mkdir effect precedes the
format check in every branch. Returns the filesystem calls in program order
together with the thrown-or-returned outcome. -/
def generateReport (now : String) (results : List TestResult) (analysis : Analysis)
    (options : ReportOptions) : List FsEffect × Except String String :=
  let includeTimestamp := options.includeTimestamp.getD true
  let timestamp := if includeTimestamp then "-" ++ replaceColons now else ""
  let reportFilename := jsOr options.filename ("test-report" ++ timestamp ++ "." ++ options.format)
  let filePath := pathJoin options.outputPath reportFilename
  if options.format = "json" then
    ([.mkdirRecursive options.outputPath,
      .writeFile filePath (generateJsonReport now results analysis)], .ok filePath)
  else if options.format = "xml" then
    ([.mkdirRecursive options.outputPath,
      .writeFile filePath (generateXmlReport now results analysis)], .ok filePath)
  else
    ([.mkdirRecursive options.outputPath], .error ("Unsupported report format: " ++ options.format))

/-- Claim C2 counterexample: on an unsupported format the failure is
reported, but only after the output directory creation has been requested —
the emitted effect list is not empty, contradicting the claim that no
directory is created before the failure. -/
theorem c2_counterexample :
    generateReport "2024-01-01T00:00:00.000Z" [] (analyzeResults []) ⟨"yaml", "out", none, some false⟩
      = ([FsEffect.mkdirRecursive "out"], .error "Unsupported report format: yaml")
    ∧ ([FsEffect.mkdirRecursive "out"] : List FsEffect) ≠ [] :=
  ⟨rfl, by decide⟩

/-- Claim C2 amended: for every ReportOptions whose format is neither json
nor xml, generateReport fails reporting the unrecognized format and writes
no file; the output directory creation, however, is requested before the
format check, so it is the one side effect that does occur. -/
theorem c2_unsupported_format (now : String) (results : List TestResult) (analysis : Analysis)
    (opts : ReportOptions) (h1 : opts.format ≠ "json") (h2 : opts.format ≠ "xml") :
    generateReport now results analysis opts
      = ([FsEffect.mkdirRecursive opts.outputPath],
         .error ("Unsupported report format: " ++ opts.format)) := by
  rw [generateReport]
  simp [h1, h2]

/-- Claim C2 witness: the amended statement instantiated on a concrete
unsupported format, both format hypotheses discharged there. -/
theorem c2_unsupported_format_witness :
    generateReport "2024-01-01T00:00:00.000Z" [] (analyzeResults [])
        ⟨"yaml", "reports", some "r.yaml", some true⟩
      = ([FsEffect.mkdirRecursive "reports"], .error ("Unsupported report format: " ++ "yaml")) :=
  c2_unsupported_format "2024-01-01T00:00:00.000Z" [] (analyzeResults [])
    ⟨"yaml", "reports", some "r.yaml", some true⟩ (by decide) (by decide)
